import Mathlib

set_option linter.unusedVariables false

namespace MetaBuildLab

/-! Embedding of the identifier-generation and status-workflow logic of the
laboratory management application: `operations/models.py`,
`operations/views.py`, `operations/forms.py` and `core/models.py`.
Database tables are embedded as lists, timestamps as naturals, and the
Django model methods and view bodies as pure state-passing functions. -/

/-! ### Python string primitives used by the identifier generators -/

/-- Decimal digit test, `'0' <= c <= '9'` by code point (48–57). -/
def isDigit (c : Char) : Bool := 48 ≤ c.toNat && c.toNat ≤ 57

/-- Value of an all-digit character list, most significant digit first. -/
def digitsVal (l : List Char) : Nat :=
  l.foldl (fun a c => a * 10 + (c.toNat - 48)) 0

/-- Parse a nonempty all-digit character list; `none` otherwise. -/
def parseDigits? (l : List Char) : Option Nat :=
  if l ≠ [] ∧ l.all isDigit then some (digitsVal l) else none

/-- Python `int(s)` on the identifier tails this program handles: an optional
sign followed by decimal digits; any other string raises `ValueError`,
embedded as `none`.  (Python additionally tolerates surrounding whitespace
and underscores between digits; no caller here produces such strings.) -/
def pyInt? (s : String) : Option Int :=
  match s.data with
  | '-' :: rest => (parseDigits? rest).map (fun n => -(n : Int))
  | '+' :: rest => (parseDigits? rest).map (fun n => (n : Int))
  | l => (parseDigits? l).map (fun n => (n : Int))

/-- Left-pad a string with `'0'` up to width `w`. -/
def padZeros (w : Nat) (s : String) : String :=
  ⟨List.replicate (w - s.data.length) '0'⟩ ++ s

/-- Python format `f"{n:04d}"`: zero-pad to width 4, the sign counted in the
width, growing beyond 4 characters when the number needs them. -/
def pad4 (n : Int) : String :=
  if n < 0 then "-" ++ padZeros 3 (Nat.repr n.natAbs) else padZeros 4 (Nat.repr n.toNat)

/-- Python format `f"{n:0wd}"` for a natural. -/
def padNat (w n : Nat) : String := padZeros w (Nat.repr n)

/-- Python string `<` on character lists: lexicographic by code point. -/
def strLtL : List Char → List Char → Bool
  | [], [] => false
  | [], _ :: _ => true
  | _ :: _, [] => false
  | a :: as, b :: bs =>
    if a.toNat < b.toNat then true
    else if b.toNat < a.toNat then false
    else strLtL as bs

/-- Python string `<`. -/
def pyStrLt (s t : String) : Bool := strLtL s.data t.data

/-- Python `s.startswith(p)` on character lists. -/
def startsWithL : List Char → List Char → Bool
  | _, [] => true
  | [], _ :: _ => false
  | a :: as, p :: ps => a == p && startsWithL as ps

/-- Python `s.startswith(p)` / the Django `__startswith` filter. -/
def pyStartsWith (s p : String) : Bool := startsWithL s.data p.data

/-- The binary maximum under Python string `<`. -/
def strMax2 (a b : String) : String := if pyStrLt a b then b else a

/-- Django `order_by('-field').first()`: the lexicographically greatest
element of the list, `none` when the list is empty. -/
def maxStr? : List String → Option String
  | [] => none
  | x :: xs => some (xs.foldl strMax2 x)

/-- Python slice `s[-4:]`: the last four characters (the whole string when
shorter than four). -/
def sliceLast4 (s : String) : String := ⟨s.data.drop (s.data.length - 4)⟩

/-- Python `s.split('-')` on character lists. -/
def splitOnDashL : List Char → List (List Char)
  | [] => [[]]
  | c :: rest =>
    if c = '-' then [] :: splitOnDashL rest
    else
      match splitOnDashL rest with
      | [] => [[c]]
      | seg :: segs => (c :: seg) :: segs

/-- Python `s.split('-')[-1]`: the segment after the last dash. -/
def lastDashSegment (s : String) : String := ⟨(splitOnDashL s.data).getLastD []⟩

/-! ### The four identifier generators (`operations/models.py`)

Each one filters the existing identifiers by the current period prefix,
takes the row that is first under descending identifier order, parses a
trailing portion of it as an integer, increments, and renders with
`f"...{next_number:04d}"`. -/

/-- `Sample.generate_sample_id`.  `ids` is the set of existing `sample_id`
values in the database. -/
def generate_sample_id (ids : List String) (year month : Nat) : String :=
  let pfx := "MBL" ++ padNat 4 year ++ padNat 2 month
  let next : Int :=
    match maxStr? (ids.filter (fun s => pyStartsWith s pfx)) with
    | some last =>
      match pyInt? (sliceLast4 last) with
      | some n => n + 1
      | none => 1
    | none => 1
  pfx ++ pad4 next

/-- `Sample.generate_client_reference`.  `ids` is the set of existing
`client_reference` values. -/
def generate_client_reference (ids : List String) (year month : Nat) : String :=
  let pfx := "CR" ++ padNat 4 year ++ padNat 2 month
  let next : Int :=
    match maxStr? (ids.filter (fun s => pyStartsWith s pfx)) with
    | some last =>
      match pyInt? (sliceLast4 last) with
      | some n => n + 1
      | none => 1
    | none => 1
  pfx ++ pad4 next

/-- `Job.generate_job_id`.  `ids` is the set of existing `job_id` values. -/
def generate_job_id (ids : List String) (year month : Nat) : String :=
  let pfx := "JOB" ++ padNat 4 year ++ padNat 2 month
  let next : Int :=
    match maxStr? (ids.filter (fun s => pyStartsWith s pfx)) with
    | some last =>
      match pyInt? (sliceLast4 last) with
      | some n => n + 1
      | none => 1
    | none => 1
  pfx ++ pad4 next

/-- `SampleReceiptForm.generate_receipt_number`.  Unlike the other three
generators it parses `receipt_number.split('-')[-1]`: the entire segment
after the last dash, however many digits it has. -/
def generate_receipt_number (ids : List String) (year : Nat) : String :=
  let pfx := "SRF-" ++ Nat.repr year ++ "-"
  let next : Int :=
    match maxStr? (ids.filter (fun s => pyStartsWith s pfx)) with
    | some last =>
      match pyInt? (lastDashSegment last) with
      | some n => n + 1
      | none => 1
    | none => 1
  pfx ++ pad4 next

/-- Modelled from the spec: the single next-identifier algorithm the spec
states uniformly for every entity type: take the lexicographically greatest
existing identifier carrying the period prefix, parse its trailing 4-digit
sequence (its last four characters), increment, zero-pad to 4 digits; start
at `0001` when no identifier exists for the period, and fall back to `0001`
when the trailing digits fail to parse. -/
def specNextId (ids : List String) (pfx : String) : String :=
  let next : Int :=
    match maxStr? (ids.filter (fun s => pyStartsWith s pfx)) with
    | some last =>
      match pyInt? (sliceLast4 last) with
      | some n => n + 1
      | none => 1
    | none => 1
  pfx ++ pad4 next

/-! ### Job / Sample workflow state (`operations/models.py`, `operations/views.py`)

The slice of the database the workflow operations touch: one sample, the
list of its jobs, and its status-history log.  Statuses are the literal
strings of the Django choice lists; timestamps are abstract naturals. -/

/-- A row of the `Job` table (the fields the workflow operations read or
write). -/
structure Job where
  job_id : String
  status : String
  assigned_to : Option String
  created_by : String
  priority : String
  instructions : String
  assigned_date : Option Nat
  due_date : Option Nat
  started_date : Option Nat
  completed_date : Option Nat
  notes : String
  tests : List String
  deriving DecidableEq, Repr

/-- The fields of a `Sample` row the workflow reads or writes: its status
and its requested tests. -/
structure SampleSt where
  status : String
  tests : List String
  deriving DecidableEq, Repr

/-- A row of `SampleStatusHistory`. -/
structure HistoryRow where
  old_status : String
  new_status : String
  changed_by : String
  notes : String
  deriving DecidableEq, Repr

/-- The database state around one sample: the sample row, its jobs (the job
an operation acts on is addressed by its index), and its history log. -/
structure LabState where
  sample : SampleSt
  jobs : List Job
  history : List HistoryRow
  deriving DecidableEq, Repr

/-- Rendering of `timezone.now().strftime('%Y-%m-%d %H:%M')`; the embedding
keeps timestamps abstract as naturals. -/
def timeStamp (now : Nat) : String := Nat.repr now

/-- `Job.start_work` (operations/models.py).  The job is `st.jobs[i]`; the
result pairs the returned boolean with the database state afterwards. -/
def start_work (st : LabState) (i : Nat) (user : String) (now : Nat) : Bool × LabState :=
  match st.jobs.get? i with
  | none => (false, st)
  | some j =>
    if j.status = "assigned" ∨ j.status = "pending" then
      let jobs' := st.jobs.set i { j with status := "in_progress", started_date := some now }
      if st.sample.status = "received" ∨ st.sample.status = "assigned" then
        (true, { sample := { st.sample with status := "in_progress" },
                 jobs := jobs',
                 history := st.history ++
                   [⟨st.sample.status, "in_progress", user,
                     "Work started on job " ++ j.job_id⟩] })
      else (true, { st with jobs := jobs' })
    else (false, st)

/-- The Django query in `Job.complete_job`: does any job of the sample other
than job `i` have status `assigned`, `in_progress` or `pending`?  The query
runs after job `i` is saved but excludes it, so it ranges over the other
rows, which the save has not touched. -/
def otherJobsBlocking (jobs : List Job) (i : Nat) : Bool :=
  (jobs.enum.filter (fun p => p.1 ≠ i)).any
    (fun p => p.2.status == "assigned" || p.2.status == "in_progress" || p.2.status == "pending")

/-- `Job.complete_job` (operations/models.py). -/
def complete_job (st : LabState) (i : Nat) (user : String) (now : Nat) : Bool × LabState :=
  match st.jobs.get? i with
  | none => (false, st)
  | some j =>
    if j.status = "in_progress" then
      let jobs' := st.jobs.set i { j with status := "completed", completed_date := some now }
      let all_jobs_completed := !(otherJobsBlocking st.jobs i)
      if all_jobs_completed && st.sample.status == "in_progress" then
        (true, { sample := { st.sample with status := "testing" },
                 jobs := jobs',
                 history := st.history ++
                   [⟨"in_progress", "testing", user,
                     "All jobs completed. Job " ++ j.job_id ++ " finished."⟩] })
      else (true, { st with jobs := jobs' })
    else (false, st)

/-- `Job.put_on_hold` (operations/models.py). -/
def put_on_hold (st : LabState) (i : Nat) (user : String) (notes : String) (now : Nat) :
    Bool × LabState :=
  match st.jobs.get? i with
  | none => (false, st)
  | some j =>
    if j.status = "assigned" ∨ j.status = "in_progress" then
      let j' : Job :=
        { j with status := "on_hold",
                 notes := if notes ≠ "" then
                     j.notes ++ "\n[On Hold - " ++ timeStamp now ++ "] " ++ notes
                   else j.notes }
      (true, { st with jobs := st.jobs.set i j' })
    else (false, st)

/-- `Job.resume_work` (operations/models.py). -/
def resume_work (st : LabState) (i : Nat) (user : String) (now : Nat) : Bool × LabState :=
  match st.jobs.get? i with
  | none => (false, st)
  | some j =>
    if j.status = "on_hold" then
      let j' : Job :=
        { j with status := "in_progress",
                 started_date := match j.started_date with
                   | none => some now
                   | some d => some d }
      (true, { st with jobs := st.jobs.set i j' })
    else (false, st)

/-- `Job.assign_to_technician` (operations/models.py): no guard and no
boolean result; `if due_date:` keeps the old value when none is supplied. -/
def assign_to_technician (st : LabState) (i : Nat) (technician : String)
    (due_date : Option Nat) (now : Nat) : LabState :=
  match st.jobs.get? i with
  | none => st
  | some j =>
    let j' : Job :=
      { j with assigned_to := some technician,
               assigned_date := some now,
               status := "assigned",
               due_date := match due_date with
                 | some d => some d
                 | none => j.due_date }
    { st with jobs := st.jobs.set i j' }

/-- The manual status edit in the `sample_detail` view (operations/views.py):
save the form's new status, then append one history row recording the status
before the save, the status after it, and the acting user. -/
def update_sample_status (st : LabState) (newStatus : String) (user : String)
    (notes : String) : LabState :=
  { st with sample := { st.sample with status := newStatus },
            history := st.history ++ [⟨st.sample.status, newStatus, user, notes⟩] }

/-- The `new_sample_intake` view (operations/views.py): a fresh sample in
status `received` with its requested tests and one initial history row with
empty `old_status`. -/
def new_sample_intake (user : String) (tests : List String) : LabState :=
  { sample := { status := "received", tests := tests },
    jobs := [],
    history := [⟨"", "received", user, "Sample received and entered into system"⟩] }

/-- The `quick_sample_intake` view (operations/views.py): like
`new_sample_intake` but with no tests yet and its own note. -/
def quick_sample_intake (user : String) : LabState :=
  { sample := { status := "received", tests := [] },
    jobs := [],
    history := [⟨"", "received", user, "Quick sample intake - tests to be added later"⟩] }

/-- Validity of `JobCreateForm` (operations/forms.py): `assigned_tests` is
required (so nonempty) and its queryset is the sample's requested tests, so
every selected test must be one of them. -/
def jobCreateFormValid (st : LabState) (assignedTests : List String) : Bool :=
  !assignedTests.isEmpty && assignedTests.all (fun t => st.sample.tests.contains t)

/-- The `create_job` view (operations/views.py).  `jobId` stands for the
value of `Job.generate_job_id()` over the global job table, and `techName`
for `assigned_to.get_full_name() or assigned_to.username`.  The view first
rejects a sample with no requested tests, then (form permitting) creates the
job with status `assigned`, sets its tests, runs `assign_to_technician`, and
finally advances the sample if it was still `received`. -/
def create_job (st : LabState) (user technician techName jobId : String)
    (priority : String) (due_date : Option Nat) (instructions : String)
    (assignedTests : List String) (now : Nat) : Bool × LabState :=
  if st.sample.tests.isEmpty then (false, st)
  else if jobCreateFormValid st assignedTests then
    let job : Job :=
      { job_id := jobId, status := "assigned", assigned_to := some technician,
        created_by := user, priority := priority, instructions := instructions,
        assigned_date := none, due_date := due_date, started_date := none,
        completed_date := none, notes := "", tests := assignedTests }
    let job : Job :=
      { job with assigned_date := some now, status := "assigned",
                 due_date := match job.due_date with
                   | some d => some d
                   | none => job.due_date }
    let st' : LabState := { st with jobs := st.jobs ++ [job] }
    if st.sample.status = "received" then
      (true, { st' with
                 sample := { st'.sample with status := "in_progress" },
                 history := st'.history ++
                   [⟨"received", "in_progress", user,
                     "Job " ++ jobId ++ " created and assigned to " ++ techName⟩] })
    else (true, st')
  else (false, st)

/-! ### Role / permission matrix (`core/models.py`) -/

/-- The static role→modules table shared by `User.can_access_module` and
`User.get_accessible_modules`; unknown roles fall through to `[]` exactly as
`access_matrix.get(self.role, [])` does. -/
def access_matrix (role : String) : List String :=
  if role = "director" then ["sales", "operations", "pricing", "finance", "config"]
  else if role = "lab_manager" then ["sales", "operations", "pricing", "finance"]
  else if role = "office_staff" then ["sales", "operations", "finance"]
  else if role = "technician" then ["operations"]
  else []

/-- `User.can_access_module`. -/
def can_access_module (role moduleName : String) : Bool :=
  (access_matrix role).contains moduleName

/-- `User.get_accessible_modules`. -/
def get_accessible_modules (role : String) : List String := access_matrix role

/-! ### Sample Receipt Form creation (`operations/forms.py`, `operations/views.py`) -/

/-- A `Sample` row as the SRF workflow sees it: its id and status. -/
structure SampleRec where
  sid : String
  status : String
  deriving DecidableEq, Repr

/-- A `SampleReceiptForm` row with its attached sample ids. -/
structure Srf where
  receipt_number : String
  samples : List String
  deriving DecidableEq, Repr

/-- The database state the SRF workflow touches. -/
structure SrfDb where
  samples : List SampleRec
  srfs : List Srf
  deriving DecidableEq, Repr

/-- `SampleReceiptForm.objects.values_list('samples__id', flat=True)`: every
sample id referenced by an existing SRF.  (Every SRF created through the
exposed workflow carries at least one sample, the form field being
required.) -/
def samples_with_receipts (db : SrfDb) : List String := (db.srfs.map Srf.samples).flatten

/-- The queryset built in `SampleReceiptFormForm.__init__`
(operations/forms.py) when no preselection narrows it: samples in status
`received`, excluding those appearing on an existing receipt. -/
def srf_candidates (db : SrfDb) : List SampleRec :=
  (db.samples.filter (fun s => s.status == "received")).filter
    (fun s => !((samples_with_receipts db).contains s.sid))

/-- Validity of a `SampleReceiptFormForm` submission: the `samples` field is
required, and a `ModelMultipleChoiceField` only accepts selections from its
queryset. -/
def srfFormValid (db : SrfDb) (selected : List String) : Bool :=
  !selected.isEmpty && selected.all (fun x => (srf_candidates db).any (fun s => s.sid == x))

/-- The POST branch of the `create_receipt_form` view (operations/views.py):
validate the form, save the SRF with a generated receipt number, and attach
the selected samples. -/
def create_receipt_form (db : SrfDb) (selected : List String) (year : Nat) :
    Bool × SrfDb :=
  if srfFormValid db selected then
    let rn := generate_receipt_number (db.srfs.map Srf.receipt_number) year
    (true, { db with srfs := db.srfs ++ [⟨rn, selected⟩] })
  else (false, db)

/-! ### Concrete states and helper definitions used by the theorems below -/

/-- A one-job state whose job is `completed`, for instantiating the guard
theorems. -/
def doneJob : Job :=
  { job_id := "JOB2025100001", status := "completed", assigned_to := some "tech",
    created_by := "mgr", priority := "normal", instructions := "",
    assigned_date := some 1, due_date := none, started_date := some 2,
    completed_date := some 3, notes := "", tests := ["t1"] }

/-- A state holding only `doneJob`. -/
def doneState : LabState :=
  { sample := { status := "testing", tests := ["t1"] }, jobs := [doneJob], history := [] }

/-- The job row as `assign_to_technician` rewrites it. -/
def assignedJob (j : Job) (tech : String) (due : Option Nat) (now : Nat) : Job :=
  { j with assigned_to := some tech, assigned_date := some now, status := "assigned",
           due_date := (match due with | some d => some d | none => j.due_date) }

/-- A one-job state whose job is `cancelled`, for instantiating C10. -/
def cancelledState : LabState :=
  { sample := { status := "cancelled", tests := ["t1"] },
    jobs := [{ doneJob with status := "cancelled" }],
    history := [] }

/-- A state with no requested tests. -/
def noTestState : LabState :=
  { sample := { status := "received", tests := [] }, jobs := [], history := [] }

/-- A received sample with one requested test. -/
def receivedState : LabState :=
  { sample := { status := "received", tests := ["t1"] }, jobs := [], history := [] }

/-- A database with one receipted sample (`S2`) and one free one (`S1`). -/
def srfDb0 : SrfDb :=
  { samples := [⟨"S1", "received"⟩, ⟨"S2", "received"⟩, ⟨"S3", "testing"⟩],
    srfs := [⟨"SRF-2025-0001", ["S2"]⟩] }

/-- The job being completed in the C1 refutation. -/
def c1Job0 : Job :=
  { doneJob with job_id := "JOB2025100001", status := "in_progress", completed_date := none }

/-- Its sibling job, non-cancelled but `on_hold`, hence not `completed`. -/
def c1Job1 : Job :=
  { doneJob with job_id := "JOB2025100002", status := "on_hold", completed_date := none }

/-- The two-job sample refuting claim C1. -/
def c1State : LabState :=
  { sample := { status := "in_progress", tests := ["t1", "t2"] },
    jobs := [c1Job0, c1Job1], history := [] }

/-- The decimal digits of `n`, most significant first: the list
`Nat.repr` produces. -/
def myDigits (n : Nat) : List Char :=
  if _h : n < 10 then [Nat.digitChar n]
  else myDigits (n / 10) ++ [Nat.digitChar (n % 10)]
termination_by n
decreasing_by
  exact Nat.div_lt_self (by omega) (by omega)

/-! ### Claim C4: guarded job operations return `false` and mutate nothing
from a disallowed source status -/

/-- Claim C4: each guarded job lifecycle operation returns a boolean rather
than raising, and whenever the job's current status is outside the
operation's allowed source set (`start_work`: pending/assigned;
`complete_job`: in_progress; `put_on_hold`: assigned/in_progress;
`resume_work`: on_hold) it returns `false` and leaves the job, the sample
and the history entirely unchanged. -/
theorem job_guards_reject (st : LabState) (i : Nat) (j : Job)
    (user notes : String) (now : Nat) (hi : st.jobs.get? i = some j) :
    (j.status ≠ "assigned" → j.status ≠ "pending" →
        start_work st i user now = (false, st)) ∧
    (j.status ≠ "in_progress" → complete_job st i user now = (false, st)) ∧
    (j.status ≠ "assigned" → j.status ≠ "in_progress" →
        put_on_hold st i user notes now = (false, st)) ∧
    (j.status ≠ "on_hold" → resume_work st i user now = (false, st)) := by
  unfold start_work complete_job put_on_hold resume_work
  rw [hi]
  refine ⟨?_, ?_, ?_, ?_⟩ <;> intros <;> simp_all

/-- Witness for C4: on a `completed` job every guarded operation reports
failure and returns the state unchanged. -/
theorem job_guards_reject_witness :
    start_work doneState 0 "u" 9 = (false, doneState) ∧
    complete_job doneState 0 "u" 9 = (false, doneState) ∧
    put_on_hold doneState 0 "u" "n" 9 = (false, doneState) ∧
    resume_work doneState 0 "u" 9 = (false, doneState) := by
  have h := job_guards_reject doneState 0 doneJob "u" "n" 9 (by decide)
  exact ⟨h.1 (by decide) (by decide), h.2.1 (by decide),
         h.2.2.1 (by decide) (by decide), h.2.2.2 (by decide)⟩

/-! ### Claim C10: `assign_to_technician` is unguarded -/

/-- Claim C10: `assign_to_technician` reports no success or failure and,
from every job status whatsoever, sets the assignee, records the assignment
timestamp, overwrites the status to `assigned`, sets `due_date` only when
one is supplied, changes no other job field, and touches neither the parent
sample nor the status history. -/
theorem assign_to_technician_spec (st : LabState) (i : Nat) (j : Job)
    (tech : String) (due : Option Nat) (now : Nat)
    (hi : st.jobs.get? i = some j) :
    let st' := assign_to_technician st i tech due now
    st'.sample = st.sample ∧ st'.history = st.history ∧
    st'.jobs.length = st.jobs.length ∧
    (∀ k, k ≠ i → st'.jobs.get? k = st.jobs.get? k) ∧
    ∃ j', st'.jobs.get? i = some j' ∧
      j'.assigned_to = some tech ∧
      j'.assigned_date = some now ∧
      j'.status = "assigned" ∧
      (due = none → j'.due_date = j.due_date) ∧
      (∀ d, due = some d → j'.due_date = some d) ∧
      j'.job_id = j.job_id ∧ j'.created_by = j.created_by ∧
      j'.priority = j.priority ∧ j'.instructions = j.instructions ∧
      j'.started_date = j.started_date ∧ j'.completed_date = j.completed_date ∧
      j'.notes = j.notes ∧ j'.tests = j.tests := by
  have hlen : i < st.jobs.length := by
    by_contra hlt
    rw [List.get?_eq_none.2 (Nat.le_of_not_lt hlt)] at hi
    exact Option.noConfusion hi
  unfold assign_to_technician
  rw [hi]
  refine ⟨rfl, rfl, by simp, fun k hk => ?_, ?_⟩
  · rw [List.get?_eq_getElem?, List.get?_eq_getElem?, List.getElem?_set_ne (Ne.symm hk)]
  · refine ⟨assignedJob j tech due now,
      ?_, rfl, rfl, rfl, ?_, ?_, rfl, rfl, rfl, rfl, rfl, rfl, rfl, rfl⟩
    · rw [List.get?_eq_getElem?]
      exact List.getElem?_set_eq_of_lt _ hlen
    · intro h; subst h; rfl
    · intro d h; subst h; rfl

/-- Witness for C10: even from a `cancelled` job the assignment goes
through, with the status overwritten to `assigned` and nothing else
touched. -/
theorem assign_to_technician_spec_witness :
    let st' := assign_to_technician cancelledState 0 "techB" none 11
    st'.sample = cancelledState.sample ∧ st'.history = cancelledState.history ∧
    st'.jobs.length = cancelledState.jobs.length ∧
    (∀ k, k ≠ 0 → st'.jobs.get? k = cancelledState.jobs.get? k) ∧
    ∃ j', st'.jobs.get? 0 = some j' ∧
      j'.assigned_to = some "techB" ∧
      j'.assigned_date = some 11 ∧
      j'.status = "assigned" ∧
      (none = (none : Option Nat) →
        j'.due_date = ({ doneJob with status := "cancelled" } : Job).due_date) ∧
      (∀ d, (none : Option Nat) = some d → j'.due_date = some d) ∧
      j'.job_id = ({ doneJob with status := "cancelled" } : Job).job_id ∧
      j'.created_by = ({ doneJob with status := "cancelled" } : Job).created_by ∧
      j'.priority = ({ doneJob with status := "cancelled" } : Job).priority ∧
      j'.instructions = ({ doneJob with status := "cancelled" } : Job).instructions ∧
      j'.started_date = ({ doneJob with status := "cancelled" } : Job).started_date ∧
      j'.completed_date = ({ doneJob with status := "cancelled" } : Job).completed_date ∧
      j'.notes = ({ doneJob with status := "cancelled" } : Job).notes ∧
      j'.tests = ({ doneJob with status := "cancelled" } : Job).tests :=
  assign_to_technician_spec cancelledState 0 ({ doneJob with status := "cancelled" })
    "techB" none 11 (by decide)

/-! ### Claim C6: a job needs at least one requested test -/

/-- Claim C6: for a sample with zero requested tests the create-job
operation is rejected before any job row, test assignment or history row is
written (the returned state is exactly the input state), and a successful
creation implies the sample had at least one requested test. -/
theorem create_job_requires_tests (st : LabState)
    (user tech techName jobId priority instr : String)
    (due : Option Nat) (tests : List String) (now : Nat) :
    (st.sample.tests = [] →
        create_job st user tech techName jobId priority due instr tests now = (false, st)) ∧
    ((create_job st user tech techName jobId priority due instr tests now).1 = true →
        st.sample.tests ≠ []) := by
  constructor
  · intro h
    unfold create_job
    rw [h]
    rfl
  · intro hsucc h
    unfold create_job at hsucc
    rw [h] at hsucc
    simp at hsucc

/-- Witness for C6: creating a job from a sample without tests is rejected
with the state unchanged. -/
theorem create_job_requires_tests_witness :
    create_job noTestState "mgr" "tech" "Tech T" "JOB2025100001" "normal" none ""
        ["t1"] 4 = (false, noTestState) :=
  (create_job_requires_tests noTestState "mgr" "tech" "Tech T" "JOB2025100001"
    "normal" "" none ["t1"] 4).1 rfl

/-! ### Claim C9: job creation advances a `received` sample -/

/-- Claim C9: a successful job creation for a sample in status `received`
immediately sets the sample to `in_progress` and appends one history row
naming the new job, before any `start_work` call; for a sample in any other
status, job creation leaves the sample status and the history unchanged. -/
theorem create_job_advances_received (st : LabState)
    (user tech techName jobId priority instr : String)
    (due : Option Nat) (tests : List String) (now : Nat)
    (hne : st.sample.tests ≠ [])
    (hv : jobCreateFormValid st tests = true) :
    let r := create_job st user tech techName jobId priority due instr tests now
    r.1 = true ∧
    (st.sample.status = "received" →
        r.2.sample.status = "in_progress" ∧
        r.2.history = st.history ++
          [⟨"received", "in_progress", user,
            "Job " ++ jobId ++ " created and assigned to " ++ techName⟩]) ∧
    (st.sample.status ≠ "received" →
        r.2.sample.status = st.sample.status ∧ r.2.history = st.history) := by
  have h1 : ¬ st.sample.tests.isEmpty = true := by
    rw [List.isEmpty_iff]
    exact hne
  unfold create_job
  rw [if_neg h1, if_pos hv]
  by_cases hs : st.sample.status = "received"
  · rw [if_pos hs]
    exact ⟨rfl, fun _ => ⟨rfl, rfl⟩, fun hns => absurd hs hns⟩
  · rw [if_neg hs]
    exact ⟨rfl, fun h => absurd h hs, fun _ => ⟨rfl, rfl⟩⟩

/-- Witness for C9: creating a job from `receivedState` succeeds, moves the
sample to `in_progress`, and logs exactly one row naming the job. -/
theorem create_job_advances_received_witness :
    let r := create_job receivedState "mgr" "tech" "Tech T" "JOB2025100001"
        "normal" none "" ["t1"] 4
    r.1 = true ∧
    (receivedState.sample.status = "received" →
        r.2.sample.status = "in_progress" ∧
        r.2.history = receivedState.history ++
          [⟨"received", "in_progress", "mgr",
            "Job " ++ "JOB2025100001" ++ " created and assigned to " ++ "Tech T"⟩]) ∧
    (receivedState.sample.status ≠ "received" →
        r.2.sample.status = receivedState.sample.status ∧
        r.2.history = receivedState.history) :=
  create_job_advances_received receivedState "mgr" "tech" "Tech T" "JOB2025100001"
    "normal" "" none ["t1"] 4 (by decide) (by decide)

/-! ### Claim C3: the role / permission matrix is exactly the static table -/

/-- Claim C3: `can_access_module` returns `true` exactly for the pairs of
the static table (director: sales, operations, pricing, finance, config;
lab_manager: sales, operations, pricing, finance; office_staff: sales,
operations, finance; technician: operations) and `false` for every other
role/module pair, and `get_accessible_modules` returns exactly each role's
row and the empty list for any unknown role. -/
theorem role_matrix_exact :
    (∀ m : String, can_access_module "director" m = true ↔
        m = "sales" ∨ m = "operations" ∨ m = "pricing" ∨ m = "finance" ∨ m = "config") ∧
    (∀ m : String, can_access_module "lab_manager" m = true ↔
        m = "sales" ∨ m = "operations" ∨ m = "pricing" ∨ m = "finance") ∧
    (∀ m : String, can_access_module "office_staff" m = true ↔
        m = "sales" ∨ m = "operations" ∨ m = "finance") ∧
    (∀ m : String, can_access_module "technician" m = true ↔ m = "operations") ∧
    get_accessible_modules "director" = ["sales", "operations", "pricing", "finance", "config"] ∧
    get_accessible_modules "lab_manager" = ["sales", "operations", "pricing", "finance"] ∧
    get_accessible_modules "office_staff" = ["sales", "operations", "finance"] ∧
    get_accessible_modules "technician" = ["operations"] ∧
    (∀ r : String, r ≠ "director" → r ≠ "lab_manager" → r ≠ "office_staff" →
        r ≠ "technician" →
        get_accessible_modules r = [] ∧ ∀ m : String, can_access_module r m = false) := by
  refine ⟨?_, ?_, ?_, ?_, rfl, rfl, rfl, rfl, ?_⟩
  · intro m
    simp [can_access_module, access_matrix, List.contains, List.elem_iff]
  · intro m
    simp [can_access_module, access_matrix, List.contains, List.elem_iff]
  · intro m
    simp [can_access_module, access_matrix, List.contains, List.elem_iff]
  · intro m
    simp [can_access_module, access_matrix, List.contains, List.elem_iff]
  · intro r h1 h2 h3 h4
    constructor
    · simp [get_accessible_modules, access_matrix, h1, h2, h3, h4]
    · intro m
      simp [can_access_module, access_matrix, h1, h2, h3, h4]

/-- Witness for C3: an unknown role has no modules and no access. -/
theorem role_matrix_exact_witness :
    get_accessible_modules "intern" = [] ∧
    can_access_module "intern" "finance" = false :=
  ⟨(role_matrix_exact.2.2.2.2.2.2.2.2 "intern" (by decide) (by decide) (by decide)
      (by decide)).1,
   (role_matrix_exact.2.2.2.2.2.2.2.2 "intern" (by decide) (by decide) (by decide)
      (by decide)).2 "finance"⟩

/-! ### Claim C7: SRF creation only accepts unreceipted `received` samples -/

/-- `List.elem` is `false` exactly on non-members. -/
theorem elem_false_iff {α : Type} [BEq α] [LawfulBEq α] (l : List α) (a : α) :
    l.elem a = false ↔ ¬ a ∈ l := by
  rw [← Bool.not_eq_true, List.elem_iff]

/-- Claim C7: the candidate set the SRF creation form offers is exactly the
samples in status `received` whose id appears on no existing SRF; a
submission selecting any sample already on an SRF is rejected with nothing
written; and a successful creation references only `received` samples
without a prior receipt. -/
theorem srf_selection_exact (db : SrfDb) (selected : List String) (year : Nat) :
    (∀ s : SampleRec, s ∈ srf_candidates db ↔
        s ∈ db.samples ∧ s.status = "received" ∧ ∀ f ∈ db.srfs, s.sid ∉ f.samples) ∧
    (∀ x ∈ selected, (∃ f ∈ db.srfs, x ∈ f.samples) →
        create_receipt_form db selected year = (false, db)) ∧
    ((create_receipt_form db selected year).1 = true →
        selected ≠ [] ∧
        ∀ x ∈ selected, ∃ s ∈ db.samples,
          s.sid = x ∧ s.status = "received" ∧ ∀ f ∈ db.srfs, x ∉ f.samples) := by
  have hcand : ∀ s : SampleRec, s ∈ srf_candidates db ↔
      s ∈ db.samples ∧ s.status = "received" ∧ ∀ f ∈ db.srfs, s.sid ∉ f.samples := by
    intro s
    simp only [srf_candidates, List.mem_filter, samples_with_receipts, List.contains,
      Bool.not_eq_true', elem_false_iff, List.mem_flatten, List.mem_map, beq_iff_eq,
      not_exists, not_and, and_assoc]
    constructor
    · rintro ⟨h1, h2, h3⟩
      exact ⟨h1, h2, fun f hf => h3 f.samples ⟨f, hf, rfl⟩⟩
    · rintro ⟨h1, h2, h3⟩
      refine ⟨h1, h2, fun l hex => ?_⟩
      obtain ⟨f, hf, hl⟩ := hex
      exact hl ▸ h3 f hf
  refine ⟨hcand, ?_, ?_⟩
  · intro x hx hex
    have hval : ¬ srfFormValid db selected = true := by
      intro hv
      unfold srfFormValid at hv
      rw [Bool.and_eq_true] at hv
      have hx2 := (List.all_eq_true.mp hv.2) x hx
      rw [List.any_eq_true] at hx2
      obtain ⟨s, hs, hsx⟩ := hx2
      rw [beq_iff_eq] at hsx
      obtain ⟨f, hf, hxf⟩ := hex
      have hno := ((hcand s).mp hs).2.2 f hf
      rw [hsx] at hno
      exact hno hxf
    unfold create_receipt_form
    rw [if_neg hval]
  · intro hsucc
    have hval : srfFormValid db selected = true := by
      by_contra hv
      unfold create_receipt_form at hsucc
      rw [if_neg hv] at hsucc
      simp at hsucc
    unfold srfFormValid at hval
    rw [Bool.and_eq_true] at hval
    obtain ⟨hne, hall⟩ := hval
    constructor
    · intro h0
      rw [h0] at hne
      simp at hne
    · intro x hx
      have hx2 := (List.all_eq_true.mp hall) x hx
      rw [List.any_eq_true] at hx2
      obtain ⟨s, hs, hsx⟩ := hx2
      rw [beq_iff_eq] at hsx
      obtain ⟨hmem, hrec, hnof⟩ := (hcand s).mp hs
      exact ⟨s, hmem, hsx, hrec, fun f hf => hsx ▸ hnof f hf⟩

/-- Witness for C7: selecting the already-receipted sample `S2` is rejected
and the database is unchanged. -/
theorem srf_selection_exact_witness :
    create_receipt_form srfDb0 ["S2"] 2025 = (false, srfDb0) :=
  (srf_selection_exact srfDb0 ["S2"] 2025).2.1 "S2" (by decide)
    ⟨⟨"SRF-2025-0001", ["S2"]⟩, by decide, by decide⟩

/-! ### Claim C5: every sample status transition logs exactly one history row -/

/-- Claim C5: every sample status transition performed by an exposed
operation (the manual edit, and the automatic advances in `create_job`,
`start_work` and `complete_job`) appends exactly one history row whose
`old_status` is the status before, whose `new_status` is the status after
and whose `changed_by` is the acting user; intake appends exactly one row
with empty `old_status`; and every operation only ever appends to the
history, never updating or deleting existing rows (each equation below
exhibits the new history as the old one plus the exact appended rows). -/
theorem history_rows_exact (st : LabState) (i : Nat) (j : Job)
    (user tech techName jobId priority instr newStatus notes : String)
    (due : Option Nat) (tests : List String) (now : Nat)
    (hi : st.jobs.get? i = some j) :
    ((update_sample_status st newStatus user notes).history =
        st.history ++ [⟨st.sample.status, newStatus, user, notes⟩] ∧
      (update_sample_status st newStatus user notes).sample.status = newStatus) ∧
    ((new_sample_intake user tests).history =
        [⟨"", "received", user, "Sample received and entered into system"⟩] ∧
      (quick_sample_intake user).history =
        [⟨"", "received", user, "Quick sample intake - tests to be added later"⟩]) ∧
    ((start_work st i user now).2.history = st.history ++
        (if (j.status = "assigned" ∨ j.status = "pending") ∧
            (st.sample.status = "received" ∨ st.sample.status = "assigned") then
          [⟨st.sample.status, "in_progress", user, "Work started on job " ++ j.job_id⟩]
        else []) ∧
      (start_work st i user now).2.sample.status =
        (if (j.status = "assigned" ∨ j.status = "pending") ∧
            (st.sample.status = "received" ∨ st.sample.status = "assigned") then
          "in_progress" else st.sample.status)) ∧
    ((complete_job st i user now).2.history = st.history ++
        (if j.status = "in_progress" ∧ otherJobsBlocking st.jobs i = false ∧
            st.sample.status = "in_progress" then
          [⟨"in_progress", "testing", user,
            "All jobs completed. Job " ++ j.job_id ++ " finished."⟩]
        else []) ∧
      (complete_job st i user now).2.sample.status =
        (if j.status = "in_progress" ∧ otherJobsBlocking st.jobs i = false ∧
            st.sample.status = "in_progress" then "testing" else st.sample.status)) ∧
    ((create_job st user tech techName jobId priority due instr tests now).2.history =
        st.history ++
        (if st.sample.tests ≠ [] ∧ jobCreateFormValid st tests = true ∧
            st.sample.status = "received" then
          [⟨"received", "in_progress", user,
            "Job " ++ jobId ++ " created and assigned to " ++ techName⟩]
        else [])) ∧
    ((put_on_hold st i user notes now).2.history = st.history ∧
      (put_on_hold st i user notes now).2.sample = st.sample ∧
      (resume_work st i user now).2.history = st.history ∧
      (resume_work st i user now).2.sample = st.sample ∧
      (assign_to_technician st i tech due now).history = st.history ∧
      (assign_to_technician st i tech due now).sample = st.sample) := by
  refine ⟨⟨rfl, rfl⟩, ⟨rfl, rfl⟩, ?_, ?_, ?_, ?_⟩
  · unfold start_work
    rw [hi]
    dsimp only
    by_cases h1 : j.status = "assigned" ∨ j.status = "pending"
    · rw [if_pos h1]
      by_cases h2 : st.sample.status = "received" ∨ st.sample.status = "assigned"
      · rw [if_pos h2, if_pos ⟨h1, h2⟩, if_pos ⟨h1, h2⟩]
        exact ⟨rfl, rfl⟩
      · rw [if_neg h2, if_neg (fun h => h2 h.2), if_neg (fun h => h2 h.2)]
        exact ⟨by simp, rfl⟩
    · rw [if_neg h1, if_neg (fun h => h1 h.1), if_neg (fun h => h1 h.1)]
      exact ⟨by simp, rfl⟩
  · unfold complete_job
    rw [hi]
    dsimp only
    by_cases h1 : j.status = "in_progress"
    · rw [if_pos h1]
      by_cases hb : otherJobsBlocking st.jobs i = false
      · by_cases hs2 : st.sample.status = "in_progress"
        · rw [if_pos (by simp [hb, hs2]), if_pos ⟨h1, hb, hs2⟩, if_pos ⟨h1, hb, hs2⟩]
          exact ⟨rfl, rfl⟩
        · rw [if_neg (by simp [hs2]), if_neg (fun h => hs2 h.2.2),
            if_neg (fun h => hs2 h.2.2)]
          exact ⟨by simp, rfl⟩
      · rw [Bool.not_eq_false] at hb
        rw [if_neg (by simp [hb]), if_neg (fun h => by rw [h.2.1] at hb; cases hb),
          if_neg (fun h => by rw [h.2.1] at hb; cases hb)]
        exact ⟨by simp, rfl⟩
    · rw [if_neg h1, if_neg (fun h => h1 h.1), if_neg (fun h => h1 h.1)]
      exact ⟨by simp, rfl⟩
  · unfold create_job
    by_cases h1 : st.sample.tests = []
    · rw [if_pos (by rw [List.isEmpty_iff]; exact h1),
        if_neg (fun h => h.1 h1)]
      simp
    · rw [if_neg (by rw [List.isEmpty_iff]; exact h1)]
      by_cases h2 : jobCreateFormValid st tests = true
      · rw [if_pos h2]
        by_cases h3 : st.sample.status = "received"
        · rw [if_pos h3, if_pos ⟨h1, h2, h3⟩]
        · rw [if_neg h3, if_neg (fun h => h3 h.2.2)]
          simp
      · rw [if_neg h2, if_neg (fun h => h2 h.2.1)]
        simp
  · unfold put_on_hold resume_work assign_to_technician
    rw [hi]
    dsimp only
    refine ⟨?_, ?_, ?_, ?_, rfl, rfl⟩ <;>
      by_cases h : j.status = "assigned" ∨ j.status = "in_progress" <;>
      by_cases h' : j.status = "on_hold" <;>
      simp [h, h']

/-- Witness for C5: a manual edit on the concrete `doneState` appends exactly
the one expected row, with the status before the edit as `old_status`. -/
theorem history_rows_exact_witness :
    (update_sample_status doneState "completed" "boss" "ok").history =
      doneState.history ++ [⟨"testing", "completed", "boss", "ok"⟩] :=
  (history_rows_exact doneState 0 doneJob "boss" "t" "tn" "J1" "p" "i" "completed" "ok"
    none [] 7 (by decide)).1.1

/-! ### Claim C1: which sibling jobs block the advance to `testing` -/

/-- The aggregation query of `complete_job` finds no blocking job exactly
when every job other than job `i` is outside
assigned / in_progress / pending (so `completed`, `on_hold` or `cancelled`). -/
theorem otherJobsBlocking_eq_false_iff (jobs : List Job) (i : Nat) :
    otherJobsBlocking jobs i = false ↔
      ∀ k j', k ≠ i → jobs.get? k = some j' →
        j'.status ≠ "assigned" ∧ j'.status ≠ "in_progress" ∧ j'.status ≠ "pending" := by
  rw [← Bool.not_eq_true]
  unfold otherJobsBlocking
  rw [List.any_eq_true]
  simp only [List.mem_filter, decide_eq_true_eq, Bool.or_eq_true, beq_iff_eq,
    List.mem_enum_iff_getElem?, not_exists, not_and, List.get?_eq_getElem?]
  constructor
  · intro h k j' hk hget
    have hp := h (k, j') ⟨hget, hk⟩
    exact ⟨fun hs => hp (Or.inl (Or.inl hs)), fun hs => hp (Or.inl (Or.inr hs)),
      fun hs => hp (Or.inr hs)⟩
  · rintro h ⟨k, j'⟩ ⟨hget, hk⟩ hor
    rcases hor with (hs | hs) | hs
    · exact (h k j' hk hget).1 hs
    · exact (h k j' hk hget).2.1 hs
    · exact (h k j' hk hget).2.2 hs

/-- Claim C1 is false on the code: in `c1State` the sibling job is `on_hold`
(non-cancelled and not completed), yet completing the `in_progress` job
advances the sample to `testing` and logs the advance, because the
aggregation query only counts `assigned`, `in_progress` and `pending`
siblings as blocking. -/
theorem complete_job_on_hold_counterexample :
    ((complete_job c1State 0 "tech" 5).1 = true ∧
     (complete_job c1State 0 "tech" 5).2.sample.status = "testing" ∧
     (complete_job c1State 0 "tech" 5).2.history.length = 1) ∧
    ¬ (∀ jb ∈ c1State.jobs.drop 1, jb.status = "cancelled" ∨ jb.status = "completed") := by
  decide

/-- Claim C1 amended: `complete_job` on an `in_progress` job returns `true`
and marks the job `completed`; it advances the sample from `in_progress` to
`testing` (appending the one history row) exactly when no other job of the
sample is `pending`, `assigned` or `in_progress` — so sibling jobs that are
`completed`, `cancelled` or `on_hold` do not block the advance (an `on_hold`
sibling in particular does not), and otherwise the sample and history are
untouched. -/
theorem complete_job_advance_iff (st : LabState) (i : Nat) (j : Job)
    (user : String) (now : Nat)
    (hi : st.jobs.get? i = some j) (hs : j.status = "in_progress") :
    let r := complete_job st i user now
    r.1 = true ∧
    r.2.jobs = st.jobs.set i { j with status := "completed", completed_date := some now } ∧
    ((r.2.sample.status = "testing" ∧
        r.2.history = st.history ++
          [⟨"in_progress", "testing", user,
            "All jobs completed. Job " ++ j.job_id ++ " finished."⟩]) ↔
      (st.sample.status = "in_progress" ∧
        ∀ k j', k ≠ i → st.jobs.get? k = some j' →
          j'.status ≠ "assigned" ∧ j'.status ≠ "in_progress" ∧ j'.status ≠ "pending")) ∧
    (¬ (st.sample.status = "in_progress" ∧
        ∀ k j', k ≠ i → st.jobs.get? k = some j' →
          j'.status ≠ "assigned" ∧ j'.status ≠ "in_progress" ∧ j'.status ≠ "pending") →
      r.2.sample = st.sample ∧ r.2.history = st.history) := by
  unfold complete_job
  rw [hi]
  dsimp only
  rw [if_pos hs]
  by_cases hb : otherJobsBlocking st.jobs i = false
  · by_cases hs2 : st.sample.status = "in_progress"
    · rw [if_pos (by simp [hb, hs2])]
      refine ⟨rfl, rfl, ?_, ?_⟩
      · constructor
        · intro _
          exact ⟨hs2, (otherJobsBlocking_eq_false_iff st.jobs i).mp hb⟩
        · intro _
          exact ⟨rfl, rfl⟩
      · intro hcon
        exact absurd ⟨hs2, (otherJobsBlocking_eq_false_iff st.jobs i).mp hb⟩ hcon
    · rw [if_neg (by simp [hs2])]
      refine ⟨rfl, rfl, ?_, fun _ => ⟨rfl, rfl⟩⟩
      constructor
      · rintro ⟨hst, hh⟩
        exact absurd hh (by simp)
      · rintro ⟨hst, _⟩
        exact absurd hst hs2
  · rw [Bool.not_eq_false] at hb
    rw [if_neg (by simp [hb])]
    refine ⟨rfl, rfl, ?_, fun _ => ⟨rfl, rfl⟩⟩
    constructor
    · rintro ⟨hst, hh⟩
      exact absurd hh (by simp)
    · rintro ⟨hs2, hforall⟩
      have hfalse := (otherJobsBlocking_eq_false_iff st.jobs i).mpr hforall
      rw [hfalse] at hb
      cases hb

/-- Witness for the amended C1 at `c1State`: the advance happens although
the sibling is `on_hold`, matching the right-hand side of the amended
equivalence. -/
theorem complete_job_advance_iff_witness :
    let r := complete_job c1State 0 "tech" 5
    r.1 = true ∧
    r.2.jobs = c1State.jobs.set 0
      { c1Job0 with status := "completed", completed_date := some 5 } ∧
    ((r.2.sample.status = "testing" ∧
        r.2.history = c1State.history ++
          [⟨"in_progress", "testing", "tech",
            "All jobs completed. Job " ++ c1Job0.job_id ++ " finished."⟩]) ↔
      (c1State.sample.status = "in_progress" ∧
        ∀ k j', k ≠ 0 → c1State.jobs.get? k = some j' →
          j'.status ≠ "assigned" ∧ j'.status ≠ "in_progress" ∧ j'.status ≠ "pending")) ∧
    (¬ (c1State.sample.status = "in_progress" ∧
        ∀ k j', k ≠ 0 → c1State.jobs.get? k = some j' →
          j'.status ≠ "assigned" ∧ j'.status ≠ "in_progress" ∧ j'.status ≠ "pending") →
      r.2.sample = c1State.sample ∧ r.2.history = c1State.history) :=
  complete_job_advance_iff c1State 0 c1Job0 "tech" 5 (by decide) (by decide)

/-! ### Claim C2: the next-identifier algorithm, per entity type -/

/-- Claim C2 is false on the code for the receipt generator: with an
existing receipt whose sequence has five digits, the code parses the whole
final dash-segment (10000) and produces `SRF-2025-10001`, while the claimed
uniform trailing-four-characters algorithm (`specNextId`) would parse
`0000` and produce `SRF-2025-0001`. -/
theorem receipt_generator_counterexample :
    generate_receipt_number ["SRF-2025-10000"] 2025 = "SRF-2025-10001" ∧
    specNextId ["SRF-2025-10000"] "SRF-2025-" = "SRF-2025-0001" ∧
    generate_receipt_number ["SRF-2025-10000"] 2025 ≠
      specNextId ["SRF-2025-10000"] "SRF-2025-" := by
  decide

/-- Claim C2 amended: the three month-prefixed generators (`MBL`, `CR`,
`JOB`) implement exactly the claimed algorithm — lexicographically greatest
identifier with the period prefix, parse its last four characters,
increment, zero-pad to four digits, with `0001` when none exists or the
parse fails — while the receipt generator follows the same algorithm except
that it parses the entire segment after the final dash instead of the last
four characters. -/
theorem generators_follow_spec (ids : List String) (year month : Nat) :
    generate_sample_id ids year month =
      specNextId ids ("MBL" ++ padNat 4 year ++ padNat 2 month) ∧
    generate_client_reference ids year month =
      specNextId ids ("CR" ++ padNat 4 year ++ padNat 2 month) ∧
    generate_job_id ids year month =
      specNextId ids ("JOB" ++ padNat 4 year ++ padNat 2 month) ∧
    (maxStr? (ids.filter
        (fun s => pyStartsWith s ("SRF-" ++ Nat.repr year ++ "-"))) = none →
      generate_receipt_number ids year = "SRF-" ++ Nat.repr year ++ "-" ++ "0001") ∧
    (∀ last n, maxStr? (ids.filter
        (fun s => pyStartsWith s ("SRF-" ++ Nat.repr year ++ "-"))) = some last →
      pyInt? (lastDashSegment last) = some n →
      generate_receipt_number ids year = "SRF-" ++ Nat.repr year ++ "-" ++ pad4 (n + 1)) ∧
    (∀ last, maxStr? (ids.filter
        (fun s => pyStartsWith s ("SRF-" ++ Nat.repr year ++ "-"))) = some last →
      pyInt? (lastDashSegment last) = none →
      generate_receipt_number ids year = "SRF-" ++ Nat.repr year ++ "-" ++ "0001") := by
  refine ⟨rfl, rfl, rfl, ?_, ?_, ?_⟩
  · intro hm
    unfold generate_receipt_number
    dsimp only
    rw [hm]
    dsimp only
    rw [show pad4 1 = "0001" from by decide]
  · intro last n hm hp
    unfold generate_receipt_number
    dsimp only
    rw [hm]
    dsimp only
    rw [hp]
  · intro last hm hp
    unfold generate_receipt_number
    dsimp only
    rw [hm]
    dsimp only
    rw [hp]
    dsimp only
    rw [show pad4 1 = "0001" from by decide]

/-- Witness for the amended C2: a receipt list whose maximum is
`SRF-2025-0012` yields `SRF-2025-0013`, and the sample generator agrees
with the spec-side algorithm on a concrete list. -/
theorem generators_follow_spec_witness :
    generate_sample_id ["MBL2025100007"] 2025 10 =
      specNextId ["MBL2025100007"] ("MBL" ++ padNat 4 2025 ++ padNat 2 10) ∧
    generate_receipt_number ["SRF-2025-0012"] 2025 =
      "SRF-" ++ Nat.repr 2025 ++ "-" ++ pad4 (12 + 1) :=
  ⟨(generators_follow_spec ["MBL2025100007"] 2025 10).1,
   (generators_follow_spec ["SRF-2025-0012"] 2025 10).2.2.2.2.1 "SRF-2025-0012" 12
     (by decide) (by decide)⟩

/-! ### Claim C8: lexicographic order facts for the generator's max -/

/-- Lexicographic comparison is irreflexive. -/
theorem strLtL_irrefl (l : List Char) : strLtL l l = false := by
  induction l with
  | nil => rfl
  | cons c l ih => simp [strLtL, Nat.lt_irrefl, ih]

/-- Lexicographic comparison is transitive. -/
theorem strLtL_trans {a : List Char} : ∀ {b c : List Char},
    strLtL a b = true → strLtL b c = true → strLtL a c = true := by
  induction a with
  | nil =>
    intro b c h1 h2
    cases b with
    | nil => cases h1
    | cons y ys =>
      cases c with
      | nil => cases h2
      | cons z zs => rfl
  | cons x xs ih =>
    intro b c h1 h2
    cases b with
    | nil => cases h1
    | cons y ys =>
      cases c with
      | nil => cases h2
      | cons z zs =>
        unfold strLtL at h1 h2 ⊢
        by_cases hxy : x.toNat < y.toNat
        · rw [if_pos hxy] at h1
          by_cases hyz : y.toNat < z.toNat
          · rw [if_pos (show x.toNat < z.toNat by omega)]
          · rw [if_neg hyz] at h2
            by_cases hzy : z.toNat < y.toNat
            · rw [if_pos hzy] at h2; cases h2
            · rw [if_pos (show x.toNat < z.toNat by omega)]
        · rw [if_neg hxy] at h1
          by_cases hyx : y.toNat < x.toNat
          · rw [if_pos hyx] at h1; cases h1
          · rw [if_neg hyx] at h1
            by_cases hyz : y.toNat < z.toNat
            · rw [if_pos (show x.toNat < z.toNat by omega)]
            · rw [if_neg hyz] at h2
              by_cases hzy : z.toNat < y.toNat
              · rw [if_pos hzy] at h2; cases h2
              · rw [if_neg hzy] at h2
                rw [if_neg (show ¬ x.toNat < z.toNat by omega),
                  if_neg (show ¬ z.toNat < x.toNat by omega)]
                exact ih h1 h2

/-- Two lists neither of which is lexicographically below the other are
equal. -/
theorem strLtL_antisymm : ∀ {u v : List Char},
    strLtL u v = false → strLtL v u = false → u = v := by
  intro u
  induction u with
  | nil =>
    intro v h1 _
    cases v with
    | nil => rfl
    | cons y ys => cases h1
  | cons x xs ih =>
    intro v h1 h2
    cases v with
    | nil => cases h2
    | cons y ys =>
      unfold strLtL at h1 h2
      by_cases hxy : x.toNat < y.toNat
      · rw [if_pos hxy] at h1; cases h1
      · by_cases hyx : y.toNat < x.toNat
        · rw [if_pos hyx] at h2; cases h2
        · rw [if_neg hxy, if_neg hyx] at h1
          rw [if_neg hyx, if_neg hxy] at h2
          have hxyeq : x = y :=
            Char.ext (UInt32.toNat.inj (show x.toNat = y.toNat by omega))
          rw [hxyeq, ih h1 h2]

/-- The fold inside `maxStr?` returns one of its inputs. -/
theorem foldMax_mem (xs : List String) : ∀ a : String,
    xs.foldl strMax2 a ∈ a :: xs := by
  induction xs with
  | nil =>
    intro a
    exact List.mem_singleton.mpr rfl
  | cons b xs ih =>
    intro a
    show xs.foldl strMax2 (strMax2 a b) ∈ _
    rcases List.mem_cons.mp (ih (strMax2 a b)) with h | h
    · rw [h]
      unfold strMax2
      by_cases hab : pyStrLt a b = true
      · simp [hab]
      · simp [hab]
    · exact List.mem_cons_of_mem _ (List.mem_cons_of_mem _ h)

/-- The fold inside `maxStr?` is not below any of its inputs. -/
theorem foldMax_not_lt (xs : List String) : ∀ a y, y ∈ a :: xs →
    pyStrLt (xs.foldl strMax2 a) y = false := by
  induction xs with
  | nil =>
    intro a y hy
    rw [List.mem_singleton] at hy
    rw [hy]
    exact strLtL_irrefl _
  | cons b xs ih =>
    intro a y hy
    show pyStrLt (xs.foldl strMax2 (strMax2 a b)) y = false
    unfold strMax2
    by_cases hab : pyStrLt a b = true
    · rw [if_pos hab]
      rcases List.mem_cons.mp hy with h | h
      · subst h
        by_contra hcon
        rw [Bool.not_eq_false] at hcon
        have hlt : pyStrLt (xs.foldl strMax2 b) b = true := strLtL_trans hcon hab
        rw [ih b b (List.mem_cons_self b xs)] at hlt
        cases hlt
      · exact ih b y h
    · rw [if_neg hab]
      rw [Bool.not_eq_true] at hab
      rcases List.mem_cons.mp hy with h | h
      · rw [h]
        exact ih a a (List.mem_cons_self a xs)
      · rcases List.mem_cons.mp h with h2 | h2
        · subst h2
          by_cases hba : pyStrLt y a = true
          · by_contra hcon
            rw [Bool.not_eq_false] at hcon
            have hlt : pyStrLt (xs.foldl strMax2 a) a = true := strLtL_trans hcon hba
            rw [ih a a (List.mem_cons_self a xs)] at hlt
            cases hlt
          · rw [Bool.not_eq_true] at hba
            have hdata : y.data = a.data := strLtL_antisymm hba hab
            show strLtL _ y.data = false
            rw [hdata]
            exact ih a a (List.mem_cons_self a xs)
        · exact ih a y (List.mem_cons_of_mem a h2)

/-- `maxStr?` returns a member of the list that no member exceeds
lexicographically: the row Django's descending `order_by` returns first. -/
theorem maxStr?_spec (l : List String) (m : String) (h : maxStr? l = some m) :
    m ∈ l ∧ ∀ y ∈ l, pyStrLt m y = false := by
  cases l with
  | nil => cases h
  | cons x xs =>
    unfold maxStr? at h
    rw [Option.some.injEq] at h
    constructor
    · rw [← h]
      exact foldMax_mem xs x
    · intro y hy
      rw [← h]
      exact foldMax_not_lt xs x y hy

/-- `maxStr?` is `none` only on the empty list. -/
theorem maxStr?_none {l : List String} (h : maxStr? l = none) : l = [] := by
  cases l with
  | nil => rfl
  | cons x xs => cases h

/-- A list extended on the right still starts with the original list. -/
theorem startsWithL_append (p t : List Char) : startsWithL (p ++ t) p = true := by
  induction p with
  | nil =>
    rw [List.nil_append]
    cases t <;> rfl
  | cons c p ih => simp [startsWithL, ih]

/-- A common prefix cancels in lexicographic comparison. -/
theorem strLtL_append_same (p : List Char) : ∀ u v : List Char,
    strLtL (p ++ u) (p ++ v) = strLtL u v := by
  induction p with
  | nil => intro u v; rfl
  | cons c p ih => intro u v; simp [strLtL, Nat.lt_irrefl, ih]

/-! ### Claim C8: numeric value of digit strings -/

/-- Accumulator lemma for `digitsVal`. -/
theorem digitsVal_shift (l : List Char) : ∀ a : Nat,
    l.foldl (fun x c => x * 10 + (c.toNat - 48)) a = a * 10 ^ l.length + digitsVal l := by
  induction l with
  | nil =>
    intro a
    simp [digitsVal]
  | cons c l ih =>
    intro a
    show l.foldl _ (a * 10 + (c.toNat - 48)) = _
    rw [ih (a * 10 + (c.toNat - 48))]
    have hc : digitsVal (c :: l) = (c.toNat - 48) * 10 ^ l.length + digitsVal l := by
      show l.foldl _ (0 * 10 + (c.toNat - 48)) = _
      rw [ih (0 * 10 + (c.toNat - 48))]
      ring
    rw [hc, List.length_cons, pow_succ]
    ring

/-- Peeling the most significant digit off `digitsVal`. -/
theorem digitsVal_cons (c : Char) (l : List Char) :
    digitsVal (c :: l) = (c.toNat - 48) * 10 ^ l.length + digitsVal l := by
  show l.foldl _ (0 * 10 + (c.toNat - 48)) = _
  rw [digitsVal_shift]
  ring

/-- Appending a least significant digit to `digitsVal`. -/
theorem digitsVal_append_one (l : List Char) (c : Char) :
    digitsVal (l ++ [c]) = 10 * digitsVal l + (c.toNat - 48) := by
  show (l ++ [c]).foldl _ 0 = _
  rw [List.foldl_append]
  show digitsVal l * 10 + (c.toNat - 48) = _
  ring

/-- The code-point window a digit character lives in. -/
theorem isDigit_bounds {c : Char} (h : isDigit c = true) :
    48 ≤ c.toNat ∧ c.toNat ≤ 57 := by
  unfold isDigit at h
  rw [Bool.and_eq_true, decide_eq_true_eq, decide_eq_true_eq] at h
  exact h

/-- A digit string of length `k` has value below `10 ^ k`. -/
theorem digitsVal_lt (l : List Char) (hd : l.all isDigit = true) :
    digitsVal l < 10 ^ l.length := by
  induction l with
  | nil => simp [digitsVal]
  | cons c l ih =>
    rw [List.all_cons, Bool.and_eq_true] at hd
    have hc := isDigit_bounds hd.1
    have hl := ih hd.2
    rw [digitsVal_cons, List.length_cons]
    have h9 : c.toNat - 48 + 1 ≤ 10 := by omega
    have step1 : digitsVal (c :: l) < (c.toNat - 48 + 1) * 10 ^ l.length := by
      rw [digitsVal_cons]
      have : (c.toNat - 48 + 1) * 10 ^ l.length =
          (c.toNat - 48) * 10 ^ l.length + 10 ^ l.length := by ring
      omega
    calc (c.toNat - 48) * 10 ^ l.length + digitsVal l
        < (c.toNat - 48 + 1) * 10 ^ l.length := by rw [← digitsVal_cons]; exact step1
      _ ≤ 10 * 10 ^ l.length := Nat.mul_le_mul_right _ h9
      _ = 10 ^ (l.length + 1) := by rw [pow_succ]; ring

/-- On equal-length digit strings, failing the lexicographic test bounds the
numeric values: the value of the right string is at most that of the left. -/
theorem digitsVal_le_of_not_lt : ∀ {u v : List Char}, u.all isDigit = true →
    v.all isDigit = true → u.length = v.length → strLtL u v = false →
    digitsVal v ≤ digitsVal u := by
  intro u
  induction u with
  | nil =>
    intro v _ _ hlen _
    have hv : v = [] := List.length_eq_zero.mp hlen.symm
    rw [hv]
  | cons x xs ih =>
    intro v hu hv hlen h
    cases v with
    | nil => cases hlen
    | cons y ys =>
      rw [List.all_cons, Bool.and_eq_true] at hu hv
      rw [List.length_cons, List.length_cons] at hlen
      have hlen' : xs.length = ys.length := by omega
      unfold strLtL at h
      by_cases hxy : x.toNat < y.toNat
      · rw [if_pos hxy] at h; cases h
      · rw [if_neg hxy] at h
        rw [digitsVal_cons, digitsVal_cons, hlen']
        by_cases hyx : y.toNat < x.toNat
        · have hbx := isDigit_bounds hu.1
          have hby := isDigit_bounds hv.1
          have hys := digitsVal_lt ys hv.2
          have hlt : (y.toNat - 48) * 10 ^ ys.length + digitsVal ys <
              (x.toNat - 48) * 10 ^ ys.length + digitsVal xs := by
            have hstep : (y.toNat - 48 + 1) * 10 ^ ys.length ≤
                (x.toNat - 48) * 10 ^ ys.length :=
              Nat.mul_le_mul_right _ (by omega)
            have hexp : (y.toNat - 48 + 1) * 10 ^ ys.length =
                (y.toNat - 48) * 10 ^ ys.length + 10 ^ ys.length := by ring
            omega
          omega
        · rw [if_neg hyx] at h
          have hrec := ih hu.2 hv.2 hlen' h
          have hxyeq : x.toNat = y.toNat := by omega
          rw [hxyeq]
          omega

/-- `pyInt?` on an all-digit string returns its value. -/
theorem pyInt?_digits (l : List Char) (h : l ≠ []) (hd : l.all isDigit = true) :
    pyInt? ⟨l⟩ = some ((digitsVal l : Nat) : Int) := by
  unfold pyInt?
  split
  · next rest heq =>
    rw [show String.data ⟨l⟩ = l from rfl] at heq
    rw [heq, List.all_cons] at hd
    rw [show isDigit '-' = false from rfl] at hd
    cases hd
  · next rest heq =>
    rw [show String.data ⟨l⟩ = l from rfl] at heq
    rw [heq, List.all_cons] at hd
    rw [show isDigit '+' = false from rfl] at hd
    cases hd
  · next =>
    simp [parseDigits?, h, hd]

/-! ### Claim C8: correctness of the decimal rendering used by `pad4` -/

/-- `Nat.toDigitsCore` with enough fuel computes `myDigits`. -/
theorem toDigitsCore_eq (fuel : Nat) : ∀ (n : Nat) (acc : List Char), n < fuel →
    Nat.toDigitsCore 10 fuel n acc = myDigits n ++ acc := by
  induction fuel with
  | zero =>
    intro n acc h
    omega
  | succ fuel ih =>
    intro n acc h
    unfold Nat.toDigitsCore
    dsimp only
    by_cases h10 : n / 10 = 0
    · rw [if_pos h10]
      have hn : n < 10 := by
        have := (Nat.div_eq_zero_iff (by omega)).mp h10
        omega
      rw [myDigits, dif_pos hn, Nat.mod_eq_of_lt hn]
      rfl
    · rw [if_neg h10]
      have hpos : 0 < n := by
        by_contra h0
        have : n = 0 := by omega
        rw [this] at h10
        exact h10 rfl
      have hlt : n / 10 < fuel := by
        have hd : n / 10 < n := Nat.div_lt_self hpos (by decide)
        omega
      rw [ih (n / 10) _ hlt]
      have hge : ¬ n < 10 := by
        intro hc
        exact h10 (Nat.div_eq_of_lt hc)
      rw [show myDigits n = myDigits (n / 10) ++ [Nat.digitChar (n % 10)] from by
        rw [myDigits, dif_neg hge]]
      rw [List.append_assoc]
      rfl

/-- The characters of `Nat.repr` are exactly `myDigits`. -/
theorem repr_data (n : Nat) : (Nat.repr n).data = myDigits n := by
  show (Nat.toDigits 10 n).asString.data = _
  unfold Nat.toDigits
  rw [toDigitsCore_eq (n + 1) n [] (Nat.lt_succ_self n)]
  show myDigits n ++ [] = myDigits n
  rw [List.append_nil]

/-- `Nat.digitChar` of a value below ten is a decimal digit character. -/
theorem digitChar_isDigit (n : Nat) (h : n < 10) :
    isDigit (Nat.digitChar n) = true := by
  interval_cases n <;> decide

/-- `Nat.digitChar` renders the digit it is given. -/
theorem digitChar_toNat (n : Nat) (h : n < 10) :
    (Nat.digitChar n).toNat - 48 = n := by
  interval_cases n <;> decide

/-- Every character of `myDigits` is a decimal digit. -/
theorem myDigits_all (n : Nat) : (myDigits n).all isDigit = true := by
  induction n using Nat.strong_induction_on with
  | _ n ih =>
    rw [myDigits]
    by_cases h : n < 10
    · rw [dif_pos h]
      simp [digitChar_isDigit n h]
    · rw [dif_neg h]
      rw [List.all_append]
      rw [ih (n / 10) (Nat.div_lt_self (by omega) (by omega))]
      simp [digitChar_isDigit (n % 10) (Nat.mod_lt _ (by omega))]

/-- `myDigits` renders the number it is given. -/
theorem myDigits_val (n : Nat) : digitsVal (myDigits n) = n := by
  induction n using Nat.strong_induction_on with
  | _ n ih =>
    rw [myDigits]
    by_cases h : n < 10
    · rw [dif_pos h]
      rw [show digitsVal [Nat.digitChar n] =
          ((Nat.digitChar n).toNat - 48) * 10 ^ (0 : Nat) + digitsVal [] from
        digitsVal_cons _ _]
      rw [digitChar_toNat n h]
      simp [digitsVal]
    · rw [dif_neg h]
      rw [digitsVal_append_one]
      rw [ih (n / 10) (Nat.div_lt_self (by omega) (by omega))]
      rw [digitChar_toNat (n % 10) (Nat.mod_lt _ (by omega))]
      omega

/-- An upper length bound for `myDigits`. -/
theorem myDigits_len_le : ∀ (k n : Nat), 0 < k → n < 10 ^ k →
    (myDigits n).length ≤ k := by
  intro k
  induction k with
  | zero =>
    intro n h
    omega
  | succ k ih =>
    intro n _ hn
    rw [myDigits]
    by_cases h : n < 10
    · rw [dif_pos h]
      simp
    · rw [dif_neg h]
      rw [List.length_append]
      have hk : 0 < k := by
        by_contra hk0
        have hk1 : k = 0 := by omega
        rw [hk1, pow_one] at hn
        exact h hn
      have hdiv : n / 10 < 10 ^ k := by
        rw [Nat.div_lt_iff_lt_mul (by omega)]
        calc n < 10 ^ (k + 1) := hn
          _ = 10 ^ k * 10 := by rw [pow_succ]
      have := ih (n / 10) hk hdiv
      simp only [List.length_singleton]
      omega

/-- A lower length bound for `myDigits`. -/
theorem myDigits_len_ge : ∀ (k n : Nat), 10 ^ k ≤ n →
    k + 1 ≤ (myDigits n).length := by
  intro k
  induction k with
  | zero =>
    intro n _
    rw [myDigits]
    by_cases h : n < 10
    · rw [dif_pos h]
      simp
    · rw [dif_neg h]
      rw [List.length_append]
      simp only [List.length_singleton]
      omega
  | succ k ih =>
    intro n hn
    have h10 : ¬ n < 10 := by
      have h1 : (10 : Nat) = 10 ^ 1 := (pow_one 10).symm
      have h2 : (10 : Nat) ^ 1 ≤ 10 ^ (k + 1) := Nat.pow_le_pow_right (by omega) (by omega)
      omega
    rw [myDigits, dif_neg h10, List.length_append]
    have hdiv : 10 ^ k ≤ n / 10 := by
      rw [Nat.le_div_iff_mul_le (by omega)]
      calc 10 ^ k * 10 = 10 ^ (k + 1) := (pow_succ 10 k).symm
        _ ≤ n := hn
    have := ih (n / 10) hdiv
    simp only [List.length_singleton]
    omega

/-- The character list behind `padZeros`. -/
theorem padZeros_data (w : Nat) (s : String) :
    (padZeros w s).data = List.replicate (w - s.data.length) '0' ++ s.data := rfl

/-- Leading zeros do not change the numeric value. -/
theorem digitsVal_replicate_zero (k : Nat) : ∀ l : List Char,
    digitsVal (List.replicate k '0' ++ l) = digitsVal l := by
  induction k with
  | zero => intro l; rfl
  | succ k ih =>
    intro l
    rw [List.replicate_succ, List.cons_append, digitsVal_cons]
    rw [show ('0' : Char).toNat - 48 = 0 from rfl]
    rw [ih l]
    ring

/-- Leading zeros are digits. -/
theorem replicate_zero_all (k : Nat) : (List.replicate k '0').all isDigit = true := by
  rw [List.all_eq_true]
  intro c hc
  rw [List.eq_of_mem_replicate hc]
  decide

/-- `pad4` of a nonnegative integer is `padZeros` of its decimal digits. -/
theorem pad4_natCast (m : Nat) : pad4 ((m : Nat) : Int) = padZeros 4 (Nat.repr m) := by
  unfold pad4
  rw [if_neg (by omega)]
  simp

/-! ### Claim C8: freshness of generated identifiers -/

/-- Generic freshness of the select-max / parse-last-four / increment
scheme: while every identifier of the period consists of the prefix plus
exactly four digit characters, the generated identifier is not yet in the
set. -/
theorem nextId_fresh (ids : List String) (pfx : String)
    (h4 : ∀ s ∈ ids, pyStartsWith s pfx = true →
      ∃ t : List Char, s.data = pfx.data ++ t ∧ t.length = 4 ∧ t.all isDigit = true) :
    ¬ specNextId ids pfx ∈ ids := by
  intro hmem
  unfold specNextId at hmem
  dsimp only at hmem
  have hstart : ∀ x : String, pyStartsWith (pfx ++ x) pfx = true := by
    intro x
    show startsWithL (pfx ++ x).data pfx.data = true
    rw [show (pfx ++ x).data = pfx.data ++ x.data from rfl]
    exact startsWithL_append _ _
  cases hM : maxStr? (ids.filter (fun s => pyStartsWith s pfx)) with
  | none =>
    rw [hM] at hmem
    dsimp only at hmem
    have hfil : pfx ++ pad4 1 ∈ ids.filter (fun s => pyStartsWith s pfx) :=
      List.mem_filter.mpr ⟨hmem, hstart _⟩
    rw [maxStr?_none hM] at hfil
    cases hfil
  | some M =>
    rw [hM] at hmem
    dsimp only at hmem
    obtain ⟨hMmem, hMmax⟩ := maxStr?_spec _ M hM
    have hMids := (List.mem_filter.mp hMmem).1
    have hMstart := (List.mem_filter.mp hMmem).2
    obtain ⟨tM, hMdata, htMlen, htMdig⟩ := h4 M hMids hMstart
    have hMlen : M.data.length = pfx.data.length + 4 := by
      rw [hMdata, List.length_append, htMlen]
    have hslice : sliceLast4 M = ⟨tM⟩ := by
      unfold sliceLast4
      rw [hMdata, List.length_append, htMlen]
      rw [show pfx.data.length + 4 - 4 = pfx.data.length from by omega]
      rw [List.drop_left]
    have htMne : tM ≠ [] := by
      intro h0
      rw [h0] at htMlen
      cases htMlen
    have hparse : pyInt? (sliceLast4 M) = some ((digitsVal tM : Nat) : Int) := by
      rw [hslice]
      exact pyInt?_digits tM htMne htMdig
    rw [hparse] at hmem
    dsimp only at hmem
    set n := digitsVal tM with hn
    have hcast : ((n : Int) + 1) = ((n + 1 : Nat) : Int) := by push_cast; ring
    rw [hcast, pad4_natCast] at hmem
    have hfil : pfx ++ padZeros 4 (Nat.repr (n + 1)) ∈
        ids.filter (fun s => pyStartsWith s pfx) :=
      List.mem_filter.mpr ⟨hmem, hstart _⟩
    obtain ⟨tG, hGdata, htGlen, htGdig⟩ := h4 _ hmem (hstart _)
    have hGpad : tG = (padZeros 4 (Nat.repr (n + 1))).data := by
      have hmid : pfx.data ++ tG = pfx.data ++ (padZeros 4 (Nat.repr (n + 1))).data := by
        rw [← hGdata]
        rfl
      exact List.append_cancel_left hmid
    have hbound : n < 10000 := by
      have hv := digitsVal_lt tM htMdig
      rw [htMlen] at hv
      norm_num at hv
      exact hv
    by_cases hover : n + 1 < 10000
    · have hlen4 : (Nat.repr (n + 1)).data.length ≤ 4 := by
        rw [repr_data]
        exact myDigits_len_le 4 (n + 1) (by omega) (by norm_num; omega)
      have hpadlen : (padZeros 4 (Nat.repr (n + 1))).data.length = 4 := by
        rw [padZeros_data, List.length_append, List.length_replicate]
        omega
      have hpadval : digitsVal (padZeros 4 (Nat.repr (n + 1))).data = n + 1 := by
        rw [padZeros_data, digitsVal_replicate_zero, repr_data, myDigits_val]
      have hpaddig : ((padZeros 4 (Nat.repr (n + 1))).data).all isDigit = true := by
        rw [padZeros_data, List.all_append, replicate_zero_all, repr_data, myDigits_all]
        rfl
      have hnotlt := hMmax _ hfil
      have htails : strLtL tM (padZeros 4 (Nat.repr (n + 1))).data = false := by
        rw [← strLtL_append_same pfx.data, ← hMdata]
        rw [show pfx.data ++ (padZeros 4 (Nat.repr (n + 1))).data =
            (pfx ++ padZeros 4 (Nat.repr (n + 1))).data from rfl]
        exact hnotlt
      have hle := digitsVal_le_of_not_lt htMdig hpaddig
        (by rw [htMlen, hpadlen]) htails
      rw [hpadval, ← hn] at hle
      omega
    · have h5 : 5 ≤ (Nat.repr (n + 1)).data.length := by
        rw [repr_data]
        have hten : 10 ^ 4 ≤ n + 1 := by norm_num; omega
        have := myDigits_len_ge 4 (n + 1) hten
        omega
      have hpadlen : (padZeros 4 (Nat.repr (n + 1))).data.length =
          (Nat.repr (n + 1)).data.length := by
        rw [padZeros_data, List.length_append, List.length_replicate]
        omega
      have hfin : tG.length = (Nat.repr (n + 1)).data.length := by
        rw [hGpad, hpadlen]
      omega

/-- Claim C8 is false on the code: once a five-digit-sequence identifier
exists for the period, the generator can return an identifier already in
the set.  `MBL2025109999` is still the lexicographic maximum (since `'9' >
'1'` at the position after the prefix), its last four characters parse to
9999, and the generated `MBL20251010000` is already present. -/
theorem overflow_uniqueness_counterexample :
    generate_sample_id ["MBL2025109999", "MBL20251010000"] 2025 10 = "MBL20251010000" ∧
    "MBL20251010000" ∈ ["MBL2025109999", "MBL20251010000"] := by
  decide

/-- Claim C8 amended: overflow past 9999 grows the identifier format, but
uniqueness then fails rather than holds — generation re-parses only the
last four characters of the lexicographically greatest identifier, so once
a five-digit-sequence identifier exists the next generated identifier can
already be present.  Uniqueness does hold as long as every identifier of
the current period carries exactly a four-digit sequence: then the next
generated identifier is not in the set. -/
theorem generate_sample_id_fresh (ids : List String) (year month : Nat)
    (h4 : ∀ s ∈ ids,
      pyStartsWith s ("MBL" ++ padNat 4 year ++ padNat 2 month) = true →
      ∃ t : List Char,
        s.data = ("MBL" ++ padNat 4 year ++ padNat 2 month).data ++ t ∧
        t.length = 4 ∧ t.all isDigit = true) :
    ¬ generate_sample_id ids year month ∈ ids :=
  nextId_fresh ids ("MBL" ++ padNat 4 year ++ padNat 2 month) h4

/-- Witness for the amended C8: two well-formed identifiers of the period,
and the generated one is fresh. -/
theorem generate_sample_id_fresh_witness :
    ¬ generate_sample_id ["MBL2025100001", "MBL2025100002"] 2025 10
        ∈ ["MBL2025100001", "MBL2025100002"] :=
  generate_sample_id_fresh ["MBL2025100001", "MBL2025100002"] 2025 10 (by
    intro s hs _hstart
    rcases List.mem_cons.mp hs with h | h
    · exact ⟨['0', '0', '0', '1'], by rw [h]; decide, by decide, by decide⟩
    · rcases List.mem_cons.mp h with h2 | h2
      · exact ⟨['0', '0', '0', '2'], by rw [h2]; decide, by decide, by decide⟩
      · cases h2)

end MetaBuildLab
